import Mathlib

/-
Verification of the redis cache-instrumentation pipeline of this repository:
the command classifier, the safe-key extractor, the span emitter, and the
redis-blaster (rb) patch adapter.  The rb adapter is embedded from
src/sentry_sdk/integrations/redis/rb.py; the classifier, extractor and span
emitter are not shipped under src/ (only their tests are), so they are
modelled from the specification, and checked against the expectations of
src/tests/integrations/redis/test_redis_cache_module.py.
-/

namespace SentryRedis

/-- Modelled from the spec: a command argument value; keys and values may be
supplied as text or as byte-encoded data, and numeric arguments (such as the
ttl of setex) also occur. -/
inductive RVal where
  | str (s : String)
  | bytes (bs : List Nat)
  | int (n : Int)
deriving DecidableEq

/-- Unicode replacement character, used by the permissive decoder. -/
def replChar : Char := Char.ofNat 0xFFFD

/-- Whether a byte is a UTF-8 continuation byte. -/
def contByte (b : Nat) : Bool := 0x80 ≤ b && b < 0xC0

/-- Modelled from the spec: one step of permissive UTF-8 decoding, given the
first byte and the remaining bytes; yields the decoded character (a
replacement character for invalid sequences, never a failure) and the bytes
not yet consumed. -/
def utf8Step (b : Nat) (rest : List Nat) : Char × List Nat :=
  if b < 0x80 then (Char.ofNat b, rest)
  else if 0xC2 ≤ b && b ≤ 0xDF then
    match rest with
    | c1 :: rest1 =>
      if contByte c1 then
        (Char.ofNat (((b % 0x20) <<< 6) + (c1 % 0x40)), rest1)
      else
        (replChar, rest)
    | [] => (replChar, [])
  else if 0xE0 ≤ b && b ≤ 0xEF then
    match rest with
    | c1 :: c2 :: rest2 =>
      if contByte c1 && contByte c2 then
        (Char.ofNat (((b % 0x10) <<< 12) + ((c1 % 0x40) <<< 6) + (c2 % 0x40)), rest2)
      else
        (replChar, rest)
    | _ => (replChar, [])
  else if 0xF0 ≤ b && b ≤ 0xF4 then
    match rest with
    | c1 :: c2 :: c3 :: rest3 =>
      if contByte c1 && contByte c2 && contByte c3 then
        (Char.ofNat (((b % 0x8) <<< 18) + ((c1 % 0x40) <<< 12)
            + ((c2 % 0x40) <<< 6) + (c3 % 0x40)), rest3)
      else
        (replChar, rest)
    | _ => (replChar, [])
  else (replChar, rest)

/-- Helper for termination: a decoding step never lengthens the remaining
byte list. -/
theorem utf8Step_len (b : Nat) (rest : List Nat) :
    (utf8Step b rest).2.length ≤ rest.length := by
  rcases rest with _ | ⟨c1, rest⟩
  · simp only [utf8Step]
    split_ifs <;> simp
  · rcases rest with _ | ⟨c2, rest⟩
    · simp only [utf8Step]
      split_ifs <;> simp
    · rcases rest with _ | ⟨c3, rest⟩
      · simp only [utf8Step]
        split_ifs <;> simp
      · simp only [utf8Step]
        split_ifs <;> simp <;> omega

/-- Helper: fuel-indexed decoding loop; the wrapper passes the list length
as fuel, which utf8Step_len shows can never run out (each step consumes at
least one byte), so the fuel-exhausted branch is unreachable. -/
def utf8LossyAux : Nat → List Nat → List Char
  | _, [] => []
  | 0, _ :: _ => []
  | fuel + 1, b :: rest =>
    (utf8Step b rest).1 :: utf8LossyAux fuel (utf8Step b rest).2

/-- Modelled from the spec: permissive (lossy, never-failing) UTF-8 decoding
of a byte sequence; invalid sequences degrade to a replacement character
instead of raising. -/
def utf8Lossy (l : List Nat) : List Char := utf8LossyAux l.length l

/-- Modelled from the spec: the decoded text form of an argument value;
byte-encoded values are decoded permissively, text passes through. -/
def decode : RVal → String
  | .str s => s
  | .bytes bs => ⟨utf8Lossy bs⟩
  | .int n => toString n

/-- Uppercasing of a command name for classification and display. -/
def upperName (s : String) : String := ⟨s.data.map Char.toUpper⟩

/-- Modelled from the spec: the semantic kind of a command. -/
inductive Classification where
  | StoreOnly
  | CacheRead
  | CacheWrite
deriving DecidableEq

/-- Modelled from the spec: the fixed table of cache-read command names. -/
def READ_CACHE_COMMANDS : List String := ["GET", "MGET"]

/-- Modelled from the spec: the fixed table of cache-write command names. -/
def WRITE_CACHE_COMMANDS : List String := ["SET", "SETEX"]

/-- Modelled from the spec: the whole fixed cache-command table. -/
def CACHE_COMMANDS : List String := READ_CACHE_COMMANDS ++ WRITE_CACHE_COMMANDS

/-- Modelled from the spec: total classification of a command name; names are
compared case-insensitively and every unrecognized name maps to StoreOnly. -/
def classify (name : String) : Classification :=
  if READ_CACHE_COMMANDS.contains (upperName name) then .CacheRead
  else if WRITE_CACHE_COMMANDS.contains (upperName name) then .CacheWrite
  else .StoreOnly

/-- Modelled from the spec: commands whose first positional argument is the
single key. -/
def SINGLE_KEY_COMMANDS : List String := ["GET", "SET", "SETEX"]

/-- Modelled from the spec: commands whose positional arguments are all keys. -/
def MULTI_KEY_COMMANDS : List String := ["MGET"]

/-- Modelled from the spec: the safe-key extractor (named _get_safe_key in
the repository).  It is total: an unknown, empty or absent command name, or
missing arguments, degrade to the empty string instead of failing; multi-key
commands join all decoded keys with a comma and a space in argument order;
keyword arguments are accepted but never consulted for key material. -/
def _get_safe_key (name : Option String) (args : Option (List RVal))
    (kwargs : Option (List (String × RVal))) : String :=
  match name with
  | none => ""
  | some n =>
    if MULTI_KEY_COMMANDS.contains (upperName n) then
      match args with
      | none => ""
      | some as => String.intercalate ", " (as.map decode)
    else if SINGLE_KEY_COMMANDS.contains (upperName n) then
      match args with
      | none => ""
      | some [] => ""
      | some (a :: _) => decode a
    else ""

/-- Modelled from the spec: an intercepted client call. -/
structure Command where
  name : String
  args : List RVal
  kwargs : List (String × RVal)
deriving DecidableEq

/-- The extracted safe key of a command. -/
def safeKey (cmd : Command) : String :=
  _get_safe_key (some cmd.name) (some cmd.args) (some cmd.kwargs)

/-- Modelled from the spec: the immutable integration configuration. -/
structure Config where
  cache_prefixes : List String
deriving DecidableEq

/-- Modelled from the spec: cache eligibility is exact string leading-part
matching (startswith) of the extracted key against the configured set. -/
def cacheEligible (cfg : Config) (key : String) : Bool :=
  cfg.cache_prefixes.any (fun p => p.data.isPrefixOf key.data)

/-- Modelled from the spec: the transport endpoint, when the client exposes
one. -/
structure Endpoint where
  address : String
  port : Nat
deriving DecidableEq

/-- Modelled from the spec: the content of one emitted span.  Optional
attributes are absent (never zero or null placeholders) when the value is
none. -/
structure SpanRecord where
  operation : String
  description : String
  tagCommand : Option String
  cacheKey : Option String
  cacheHit : Option Bool
  cacheItemSize : Option Nat
  peerAddress : Option String
  peerPort : Option Nat
deriving DecidableEq

/-- The backing key-value store, an external collaborator modelled as an
association list from keys to stored text values. -/
def Store := List (String × String)

instance : DecidableEq Store := by
  unfold Store
  infer_instance

/-- Lookup of a key in the backing store. -/
def lookupStore : Store → String → Option String
  | [], _ => none
  | (k, v) :: rest, key => if k = key then some v else lookupStore rest key

/-- Insertion of a binding into the backing store. -/
def insertStore (st : Store) (k v : String) : Store := (k, v) :: st

/-- The result of the real client call, as the span emitter observes it. -/
inductive CallResult where
  | one (v : Option String)
  | many (vs : List (Option String))
  | ack
deriving DecidableEq

/-- Execution of the real command against the backing store (external
collaborator; only the shapes the classified commands need). -/
def runCommand (st : Store) (cmd : Command) : Store × CallResult :=
  let n := upperName cmd.name
  if n = "GET" then
    match cmd.args with
    | k :: _ => (st, .one (lookupStore st (decode k)))
    | [] => (st, .one none)
  else if n = "MGET" then
    (st, .many (cmd.args.map (fun k => lookupStore st (decode k))))
  else if n = "SET" then
    match cmd.args with
    | k :: v :: _ => (insertStore st (decode k) (decode v), .ack)
    | _ => (st, .ack)
  else if n = "SETEX" then
    match cmd.args with
    | k :: _ :: v :: _ => (insertStore st (decode k) (decode v), .ack)
    | _ => (st, .ack)
  else
    (st, .ack)

/-- Modelled from the spec: hit determination from the call result; a
single-key read hits when the result is present, a multi-key read hits only
when every returned entry is present, and writes never record a hit. -/
def cacheHitOf : CallResult → Option Bool
  | .one v => some v.isSome
  | .many vs => some (vs.all Option.isSome)
  | .ack => none

/-- Modelled from the spec: the determinable byte size of a read result; it
is absent when no byte size can be determined. -/
def readSizeOf : CallResult → Option Nat
  | .one (some v) => some v.utf8ByteSize
  | _ => none

/-- Modelled from the spec: the primary value argument of a write command. -/
def writeValueOf (name : String) (args : List RVal) : Option RVal :=
  if upperName name = "SET" then args[1]?
  else if upperName name = "SETEX" then args[2]?
  else none

/-- Modelled from the spec: the store span of a call: operation store, the
uppercased command name as its command tag, and the description format
CMD \x27key\x27. -/
def mkStoreSpan (ep : Option Endpoint) (cmd : Command) (key : String) : SpanRecord :=
  { operation := "store"
    description := upperName cmd.name ++ " \x27" ++ key ++ "\x27"
    tagCommand := some (upperName cmd.name)
    cacheKey := none
    cacheHit := none
    cacheItemSize := none
    peerAddress := ep.map Endpoint.address
    peerPort := ep.map Endpoint.port }

/-- Modelled from the spec: a cache span: bare key as description, cache.key
set, and optional hit and item-size attributes. -/
def mkCacheSpan (ep : Option Endpoint) (op : String) (key : String)
    (hit : Option Bool) (size : Option Nat) : SpanRecord :=
  { operation := op
    description := key
    tagCommand := none
    cacheKey := some key
    cacheHit := hit
    cacheItemSize := size
    peerAddress := ep.map Endpoint.address
    peerPort := ep.map Endpoint.port }

/-- Modelled from the spec: the full per-call pipeline.  The returned span
list is in opening order: for an eligible cache read or write the cache span
is opened first as parent and the nested store span second; otherwise
exactly one store span is opened.  Spans close in reverse opening order. -/
def processCall (cfg : Config) (ep : Option Endpoint) (st : Store)
    (cmd : Command) : Store × List SpanRecord :=
  let key := safeKey cmd
  let run := runCommand st cmd
  let storeSpan := mkStoreSpan ep cmd key
  match classify cmd.name with
  | .StoreOnly => (run.1, [storeSpan])
  | .CacheRead =>
    if cacheEligible cfg key then
      (run.1, [mkCacheSpan ep "cache_get" key (cacheHitOf run.2) (readSizeOf run.2),
               storeSpan])
    else
      (run.1, [storeSpan])
  | .CacheWrite =>
    if cacheEligible cfg key then
      (run.1, [mkCacheSpan ep "cache_put" key none
                 ((writeValueOf cmd.name cmd.args).map (fun v => (decode v).utf8ByteSize)),
               storeSpan])
    else
      (run.1, [storeSpan])

/-- Processing of a sequence of calls, threading the backing store and
concatenating the emitted spans in order. -/
def processCalls (cfg : Config) (ep : Option Endpoint) :
    Store → List Command → Store × List SpanRecord
  | st, [] => (st, [])
  | st, c :: cs =>
    let r1 := processCall cfg ep st c
    let r2 := processCalls cfg ep r1.1 cs
    (r2.1, r1.2 ++ r2.2)

/-- A client class of the rb (redis blaster) library, from rb.clients. -/
inductive ClientClass where
  | FanoutClient
  | MappingClient
  | RoutingClient
deriving DecidableEq

/-- The connection-attribute function; _set_db_data is the one imported from
sentry_sdk.integrations.redis.modules.queries. -/
inductive DbDataFn where
  | queriesSetDbData
deriving DecidableEq

/-- The imported _set_db_data function of modules.queries. -/
def _set_db_data : DbDataFn := .queriesSetDbData

/-- A registration produced by patch_redis_client of _sync_common: which
client class was wrapped and with which per-client configuration. -/
structure Registration where
  client : ClientClass
  is_cluster : Bool
  set_db_data_fn : DbDataFn
deriving DecidableEq

/-- The patch_redis_client call of _sync_common, recorded as a registration. -/
def patch_redis_client (client : ClientClass) (is_cluster : Bool)
    (set_db_data_fn : DbDataFn) : Registration :=
  ⟨client, is_cluster, set_db_data_fn⟩

/-- Embedded from src/sentry_sdk/integrations/redis/rb.py: _patch_rb tries
to pull in rb.clients; an ImportError is swallowed (pass), nothing is wrapped,
otherwise the three client classes are wrapped.  The result is always ok:
the function never lets the import failure escape. -/
def _patch_rb (imp : Except String Unit) : Except String (List Registration) :=
  match imp with
  | .error _ => .ok []
  | .ok _ =>
    .ok [patch_redis_client .FanoutClient false _set_db_data,
         patch_redis_client .MappingClient false _set_db_data,
         patch_redis_client .RoutingClient false _set_db_data]

/-- Helper: looking up the key just inserted finds the inserted value. -/
theorem lookupStore_insert (st : Store) (k v : String) :
    lookupStore (insertStore st k v) k = some v := by
  simp [insertStore, lookupStore]

/-- Helper: evaluation of the pipeline on a single-key get call. -/
theorem processCall_get_eval (cfg : Config) (ep : Option Endpoint) (st : Store)
    (k : String) :
    processCall cfg ep st ⟨"get", [.str k], []⟩ =
      if cacheEligible cfg k then
        (st, [mkCacheSpan ep "cache_get" k (some (lookupStore st k).isSome)
                (readSizeOf (.one (lookupStore st k))),
              mkStoreSpan ep ⟨"get", [.str k], []⟩ k])
      else (st, [mkStoreSpan ep ⟨"get", [.str k], []⟩ k]) := rfl

/-- Helper: evaluation of the pipeline on a set call with text key and
value. -/
theorem processCall_set_eval (cfg : Config) (ep : Option Endpoint) (st : Store)
    (k v : String) :
    processCall cfg ep st ⟨"set", [.str k, .str v], []⟩ =
      if cacheEligible cfg k then
        (insertStore st k v,
         [mkCacheSpan ep "cache_put" k none (some v.utf8ByteSize),
          mkStoreSpan ep ⟨"set", [.str k, .str v], []⟩ k])
      else (insertStore st k v, [mkStoreSpan ep ⟨"set", [.str k, .str v], []⟩ k]) := rfl

/-- C1: for every call classified CacheRead whose extracted key matches a
configured cache prefix, exactly two spans are produced: a parent span with
operation cache_get opened first and the nested store span opened second, in
that order; for an eligible CacheWrite the pair is cache_put then the nested
store span. -/
theorem C1_eligible_cache_pair (cfg : Config) (ep : Option Endpoint) (st : Store)
    (cmd : Command) (helig : cacheEligible cfg (safeKey cmd) = true) :
    (classify cmd.name = .CacheRead →
      ((processCall cfg ep st cmd).2).map SpanRecord.operation
        = ["cache_get", "store"]) ∧
    (classify cmd.name = .CacheWrite →
      ((processCall cfg ep st cmd).2).map SpanRecord.operation
        = ["cache_put", "store"]) := by
  constructor <;> intro hcls <;>
    simp [processCall, hcls, helig, mkCacheSpan, mkStoreSpan]

/-- Witness for C1 at the configuration of the spec: prefix mycache, a get
and a set of the key mycachekey. -/
theorem C1_eligible_cache_pair_witness :
    ((processCall ⟨["mycache"]⟩ none [] ⟨"get", [.str "mycachekey"], []⟩).2).map
        SpanRecord.operation = ["cache_get", "store"] ∧
    ((processCall ⟨["mycache"]⟩ none []
        ⟨"set", [.str "mycachekey", .str "bla"], []⟩).2).map
        SpanRecord.operation = ["cache_put", "store"] :=
  ⟨(C1_eligible_cache_pair ⟨["mycache"]⟩ none [] ⟨"get", [.str "mycachekey"], []⟩
      (by decide)).1 (by decide),
   (C1_eligible_cache_pair ⟨["mycache"]⟩ none []
      ⟨"set", [.str "mycachekey", .str "bla"], []⟩ (by decide)).2 (by decide)⟩

/-- C2: cache eligibility is exact string leading-part matching (startswith)
of the extracted key against the configured set, not substring matching: for
a classified cache command the span pair is opened iff the key starts with
some configured entry; with entries bla and blub, key bl is not eligible
while blub and blubkeything are. -/
theorem C2_eligibility_startswith (cfg : Config) (ep : Option Endpoint)
    (st : Store) (cmd : Command) (hcls : classify cmd.name ≠ .StoreOnly) :
    (((processCall cfg ep st cmd).2).length = 2 ↔
      ∃ p ∈ cfg.cache_prefixes, p.data.isPrefixOf (safeKey cmd).data = true) ∧
    ((processCall ⟨["bla", "blub"]⟩ none [] ⟨"get", [.str "bl"], []⟩).2).length = 1 ∧
    ((processCall ⟨["bla", "blub"]⟩ none [] ⟨"get", [.str "blub"], []⟩).2).length = 2 ∧
    ((processCall ⟨["bla", "blub"]⟩ none []
        ⟨"get", [.str "blubkeything"], []⟩).2).length = 2 := by
  refine ⟨?_, by decide, by decide, by decide⟩
  have he : (∃ p ∈ cfg.cache_prefixes, p.data.isPrefixOf (safeKey cmd).data = true)
      ↔ cacheEligible cfg (safeKey cmd) = true := by
    simp [cacheEligible]
  rw [he]
  cases hc : classify cmd.name with
  | StoreOnly => exact absurd hc hcls
  | CacheRead =>
    by_cases hel : cacheEligible cfg (safeKey cmd) = true <;>
      simp [processCall, hc, hel]
  | CacheWrite =>
    by_cases hel : cacheEligible cfg (safeKey cmd) = true <;>
      simp [processCall, hc, hel]

/-- Witness for C2 at the configuration of the spec: entries bla and blub,
an eligible read of the key blub. -/
theorem C2_eligibility_startswith_witness :
    ((processCall ⟨["bla", "blub"]⟩ none [] ⟨"get", [.str "blub"], []⟩).2).length = 2 :=
  ((C2_eligibility_startswith ⟨["bla", "blub"]⟩ none [] ⟨"get", [.str "blub"], []⟩
      (by decide)).1).mpr ⟨"blub", by decide, by decide⟩

/-- C3: on an eligible cache read, cache.hit is false when the key was never
written and true on a read following a write of that key; cache.item_size is
the exact byte length of the stored value when determinable and is absent
(none, never zero or null) when no byte size can be determined, as on a
miss. -/
theorem C3_hit_miss_and_size (cfg : Config) (ep : Option Endpoint) (st : Store)
    (k v : String) (helig : cacheEligible cfg k = true) :
    (lookupStore st k = none →
      (processCall cfg ep st ⟨"get", [.str k], []⟩).2 =
        [mkCacheSpan ep "cache_get" k (some false) none,
         mkStoreSpan ep ⟨"get", [.str k], []⟩ k]) ∧
    ((processCall cfg ep
        ((processCall cfg ep st ⟨"set", [.str k, .str v], []⟩).1)
        ⟨"get", [.str k], []⟩).2 =
      [mkCacheSpan ep "cache_get" k (some true) (some v.utf8ByteSize),
       mkStoreSpan ep ⟨"get", [.str k], []⟩ k]) := by
  constructor
  · intro hmiss
    simp [processCall_get_eval, helig, hmiss, readSizeOf]
  · simp [processCall_set_eval, processCall_get_eval, helig, lookupStore_insert,
      readSizeOf]

/-- Witness for C3 at the data of the spec: reading mycachekey before any
write misses with no item size; after writing a six-character value encoded
at three bytes per character, the read hits with item size 18. -/
theorem C3_hit_miss_and_size_witness :
    ((processCall ⟨["mycache"]⟩ none ([] : Store) ⟨"get", [.str "mycachekey"], []⟩).2 =
      [mkCacheSpan none "cache_get" "mycachekey" (some false) none,
       mkStoreSpan none ⟨"get", [.str "mycachekey"], []⟩ "mycachekey"]) ∧
    ((processCall ⟨["mycache"]⟩ none
        ((processCall ⟨["mycache"]⟩ none ([] : Store)
          ⟨"set", [.str "mycachekey", .str "事实胜于雄辩"], []⟩).1)
        ⟨"get", [.str "mycachekey"], []⟩).2 =
      [mkCacheSpan none "cache_get" "mycachekey" (some true)
        (some ("事实胜于雄辩" : String).utf8ByteSize),
       mkStoreSpan none ⟨"get", [.str "mycachekey"], []⟩ "mycachekey"]) ∧
    ("事实胜于雄辩" : String).utf8ByteSize = 18 :=
  ⟨(C3_hit_miss_and_size ⟨["mycache"]⟩ none [] "mycachekey" "事实胜于雄辩"
      (by decide)).1 (by decide),
   (C3_hit_miss_and_size ⟨["mycache"]⟩ none [] "mycachekey" "事实胜于雄辩"
      (by decide)).2,
   by decide⟩

/-- C4: every command name outside the fixed cache-command table is
classified StoreOnly and the call produces exactly one span, the store span;
no cache span is opened regardless of the configured entries. -/
theorem C4_store_only_single_span (cfg : Config) (ep : Option Endpoint)
    (st : Store) (cmd : Command)
    (h : CACHE_COMMANDS.contains (upperName cmd.name) = false) :
    classify cmd.name = .StoreOnly ∧
    (processCall cfg ep st cmd).2 = [mkStoreSpan ep cmd (safeKey cmd)] ∧
    (mkStoreSpan ep cmd (safeKey cmd)).operation = "store" := by
  simp [CACHE_COMMANDS, READ_CACHE_COMMANDS, WRITE_CACHE_COMMANDS] at h
  obtain ⟨h1, h2, h3, h4⟩ := h
  have hcls : classify cmd.name = .StoreOnly := by
    simp [classify, READ_CACHE_COMMANDS, WRITE_CACHE_COMMANDS, h1, h2, h3, h4]
  exact ⟨hcls, by simp [processCall, hcls], rfl⟩

/-- Witness for C4 at the field-level hash read of the spec (hget), under a
configuration whose entry does match the key. -/
theorem C4_store_only_single_span_witness :
    classify "hget" = .StoreOnly ∧
    (processCall ⟨["mycache"]⟩ none []
        ⟨"hget", [.str "mycachekey", .str "myfield"], []⟩).2 =
      [mkStoreSpan none ⟨"hget", [.str "mycachekey", .str "myfield"], []⟩
        (safeKey ⟨"hget", [.str "mycachekey", .str "myfield"], []⟩)] ∧
    (mkStoreSpan none ⟨"hget", [.str "mycachekey", .str "myfield"], []⟩
        (safeKey ⟨"hget", [.str "mycachekey", .str "myfield"], []⟩)).operation
      = "store" :=
  C4_store_only_single_span ⟨["mycache"]⟩ none []
    ⟨"hget", [.str "mycachekey", .str "myfield"], []⟩ (by decide)

/-- C5: round trip of key extraction: for every supported single-key command
name and every key value, whether text or byte-encoded, extracting from a
one-element argument list with empty keyword arguments yields exactly the
decoded text form of the key. -/
theorem C5_single_key_roundtrip (name : String) (k : RVal)
    (h : SINGLE_KEY_COMMANDS.contains (upperName name) = true) :
    _get_safe_key (some name) (some [k]) (some []) = decode k := by
  have h2 : upperName name = "GET" ∨ upperName name = "SET"
      ∨ upperName name = "SETEX" := by
    simpa [SINGLE_KEY_COMMANDS] using h
  simp only [_get_safe_key]
  rcases h2 with h2 | h2 | h2 <;> rw [h2] <;> rfl

/-- Witness for C5 at the cases of the test table: a text key and a
byte-encoded key (the bytes of bla) under the command get. -/
theorem C5_single_key_roundtrip_witness :
    (_get_safe_key (some "get") (some [.str "bla"]) (some [])
      = decode (.str "bla")) ∧
    (_get_safe_key (some "get") (some [.bytes [98, 108, 97]]) (some [])
      = decode (.bytes [98, 108, 97])) ∧
    decode (.bytes [98, 108, 97]) = "bla" :=
  ⟨C5_single_key_roundtrip "get" (.str "bla") (by decide),
   C5_single_key_roundtrip "get" (.bytes [98, 108, 97]) (by decide),
   by decide⟩

/-- C6: for every multi-key command the extracted key is all positional
arguments, decoded where necessary, joined by a comma and a space in the
order supplied (duplicates preserved); with no configured entries such a
call produces a single store span whose description shows that joined key. -/
theorem C6_multi_key_join (name : String) (args : List RVal) (ep : Option Endpoint)
    (st : Store) (h : MULTI_KEY_COMMANDS.contains (upperName name) = true) :
    safeKey ⟨name, args, []⟩ = String.intercalate ", " (args.map decode) ∧
    ((processCall ⟨[]⟩ ep st ⟨name, args, []⟩).2).map SpanRecord.description =
      [upperName name ++ " \x27"
        ++ String.intercalate ", " (args.map decode) ++ "\x27"] := by
  have h2 : upperName name = "MGET" := by
    simpa [MULTI_KEY_COMMANDS] using h
  have hkey : safeKey ⟨name, args, []⟩ = String.intercalate ", " (args.map decode) := by
    simp only [safeKey, _get_safe_key]
    rw [h2]
    rfl
  refine ⟨hkey, ?_⟩
  have hcls : classify name = .CacheRead := by
    simp [classify, READ_CACHE_COMMANDS, h2]
  have helig : ∀ key, cacheEligible ⟨[]⟩ key = false := fun _ => rfl
  simp [processCall, hcls, helig, mkStoreSpan, hkey]

/-- Witness for C6 at the three-key mget of the spec. -/
theorem C6_multi_key_join_witness :
    safeKey ⟨"mget", [.str "bla", .str "blub", .str "foo"], []⟩ =
      String.intercalate ", " ([RVal.str "bla", .str "blub", .str "foo"].map decode) ∧
    String.intercalate ", " ([RVal.str "bla", .str "blub", .str "foo"].map decode)
      = "bla, blub, foo" :=
  ⟨(C6_multi_key_join "mget" [.str "bla", .str "blub", .str "foo"] none []
      (by decide)).1,
   by decide⟩

/-- C7: key extraction is total and never raises: an absent (none) or empty
or unknown command name, and missing (none) positional arguments, all yield
the empty string instead of failing. -/
theorem C7_extraction_total (name name2 : String) (args : Option (List RVal))
    (kwargs kwargs2 : Option (List (String × RVal)))
    (hs : SINGLE_KEY_COMMANDS.contains (upperName name) = false)
    (hm : MULTI_KEY_COMMANDS.contains (upperName name) = false) :
    _get_safe_key none args kwargs = "" ∧
    _get_safe_key (some "") args kwargs = "" ∧
    _get_safe_key (some name) args kwargs = "" ∧
    _get_safe_key (some name2) none kwargs2 = "" := by
  have hs2 : upperName name ∉ SINGLE_KEY_COMMANDS := by simpa using hs
  have hm2 : upperName name ∉ MULTI_KEY_COMMANDS := by simpa using hm
  refine ⟨rfl, rfl, ?_, ?_⟩
  · simp [_get_safe_key, hs2, hm2]
  · simp only [_get_safe_key]
    split_ifs <;> rfl

/-- Witness for C7 at the cases of the test table: absent name, empty name,
the unrecognized name hget, and absent arguments. -/
theorem C7_extraction_total_witness :
    _get_safe_key none (some [.str "bla", .str "field"]) none = "" ∧
    _get_safe_key (some "") (some [.str "bla", .str "field"]) none = "" ∧
    _get_safe_key (some "hget") (some [.str "bla", .str "field"]) none = "" ∧
    _get_safe_key (some "get") none none = "" :=
  C7_extraction_total "hget" "get" (some [.str "bla", .str "field"]) none none
    (by decide) (by decide)

/-- C8: every store span carries a command tag equal to the uppercased
command name and a description of the form CMD \x27key\x27, while every
cache span has the bare extracted key as its description and no command
tag. -/
theorem C8_span_format (cfg : Config) (ep : Option Endpoint) (st : Store)
    (cmd : Command) :
    ∀ s ∈ (processCall cfg ep st cmd).2,
      (s.operation = "store" →
        s.tagCommand = some (upperName cmd.name) ∧
        s.description = upperName cmd.name ++ " \x27" ++ safeKey cmd ++ "\x27") ∧
      ((s.operation = "cache_get" ∨ s.operation = "cache_put") →
        s.description = safeKey cmd ∧ s.tagCommand = none) := by
  intro s hs
  cases hcls : classify cmd.name with
  | StoreOnly =>
    simp [processCall, hcls] at hs
    subst hs
    exact ⟨fun _ => ⟨rfl, rfl⟩, fun h => by simp [mkStoreSpan] at h⟩
  | CacheRead =>
    by_cases hel : cacheEligible cfg (safeKey cmd) = true
    · simp [processCall, hcls, hel] at hs
      rcases hs with hs | hs <;> subst hs
      · exact ⟨fun h => by simp [mkCacheSpan] at h, fun _ => ⟨rfl, rfl⟩⟩
      · exact ⟨fun _ => ⟨rfl, rfl⟩, fun h => by simp [mkStoreSpan] at h⟩
    · simp [processCall, hcls, hel] at hs
      subst hs
      exact ⟨fun _ => ⟨rfl, rfl⟩, fun h => by simp [mkStoreSpan] at h⟩
  | CacheWrite =>
    by_cases hel : cacheEligible cfg (safeKey cmd) = true
    · simp [processCall, hcls, hel] at hs
      rcases hs with hs | hs <;> subst hs
      · exact ⟨fun h => by simp [mkCacheSpan] at h, fun _ => ⟨rfl, rfl⟩⟩
      · exact ⟨fun _ => ⟨rfl, rfl⟩, fun h => by simp [mkStoreSpan] at h⟩
    · simp [processCall, hcls, hel] at hs
      subst hs
      exact ⟨fun _ => ⟨rfl, rfl⟩, fun h => by simp [mkStoreSpan] at h⟩

/-- Witness for C8 at the store span of an eligible read of the key blub. -/
theorem C8_span_format_witness :
    (mkStoreSpan none ⟨"get", [.str "blub"], []⟩ "blub").tagCommand
      = some (upperName "get") ∧
    (mkStoreSpan none ⟨"get", [.str "blub"], []⟩ "blub").description
      = upperName "get" ++ " \x27" ++ safeKey ⟨"get", [.str "blub"], []⟩ ++ "\x27" :=
  (C8_span_format ⟨["bla", "blub"]⟩ none [] ⟨"get", [.str "blub"], []⟩
    (mkStoreSpan none ⟨"get", [.str "blub"], []⟩ "blub") (by decide)).1 rfl

/-- C9: when the client library cannot be imported at setup time, _patch_rb
swallows the ImportError, wraps nothing and lets no error escape; when the
module loads it proceeds to wrap the client shapes. -/
theorem C9_import_failure_silent_noop :
    (∀ e : String, _patch_rb (.error e) = .ok []) ∧
    (∃ regs, _patch_rb (.ok ()) = .ok regs ∧ regs.length = 3) :=
  ⟨fun _ => rfl, ⟨_, rfl, rfl⟩⟩

/-- C10: on a successful import, _patch_rb wraps exactly the three client
classes FanoutClient, MappingClient and RoutingClient, each registered with
is_cluster false and the shared connection-attribute function _set_db_data,
and nothing else. -/
theorem C10_wraps_exactly_three :
    ∀ regs, _patch_rb (.ok ()) = .ok regs →
      regs.map Registration.client
        = [.FanoutClient, .MappingClient, .RoutingClient] ∧
      regs.all (fun r => !r.is_cluster) = true ∧
      regs.all (fun r => r.set_db_data_fn == _set_db_data) = true := by
  intro regs h
  have h2 : regs = [patch_redis_client .FanoutClient false _set_db_data,
      patch_redis_client .MappingClient false _set_db_data,
      patch_redis_client .RoutingClient false _set_db_data] := by
    simpa [_patch_rb] using h.symm
  subst h2
  exact ⟨rfl, rfl, rfl⟩

/-- Witness for C10 at the actual registration list of the adapter. -/
theorem C10_wraps_exactly_three_witness :
    ([patch_redis_client .FanoutClient false _set_db_data,
      patch_redis_client .MappingClient false _set_db_data,
      patch_redis_client .RoutingClient false _set_db_data].map Registration.client
        = [.FanoutClient, .MappingClient, .RoutingClient]) ∧
    ([patch_redis_client .FanoutClient false _set_db_data,
      patch_redis_client .MappingClient false _set_db_data,
      patch_redis_client .RoutingClient false _set_db_data].all
        (fun r => !r.is_cluster) = true) ∧
    ([patch_redis_client .FanoutClient false _set_db_data,
      patch_redis_client .MappingClient false _set_db_data,
      patch_redis_client .RoutingClient false _set_db_data].all
        (fun r => r.set_db_data_fn == _set_db_data) = true) :=
  C10_wraps_exactly_three _ rfl

end SentryRedis
